import Mathlib

/-!
Verification of the game-of-life program (`src/rust/game-of-life/src/main.rs`):
a toroidal Game of Life on a double-buffered boolean grid, driven by touch
input and rendered as fixed sprites into a packed pixel buffer.

The definitions below are a shallow embedding of the program: machine
integers become `Nat`/`Int`, the fixed-size arrays become lists, and the
in-place mutation of the double buffer becomes explicit state passing
through folds over the loop ranges.
-/

/-- Modelled from the spec: the display width in pixels, a startup
configuration constant (board constant `DISP_WIDTH` of the board definition
crate, which is not among the embedded sources); the target LCD is 320×240. -/
def DISP_WIDTH : Nat := 320

/-- Modelled from the spec: the display height in pixels, a startup
configuration constant (board constant `DISP_HEIGHT` of the board definition
crate, which is not among the embedded sources); the target LCD is 320×240. -/
def DISP_HEIGHT : Nat := 240

/-- Block size in pixels of one grid cell (`BLK_SIZE`, line 21). -/
def BLK_SIZE : Nat := 8

/-- Grid width in cells (`GRID_WIDTH`, line 22). -/
def GRID_WIDTH : Nat := DISP_WIDTH / BLK_SIZE

/-- Grid height in cells (`GRID_HEIGHT`, line 23). -/
def GRID_HEIGHT : Nat := DISP_HEIGHT / BLK_SIZE

/-- The universe abstraction (lines 32-35): two flat boolean buffers of
`GRID_WIDTH*GRID_HEIGHT` cells and the index of the current buffer. -/
structure Universe where
  state : List (List Bool)
  cur : Nat
deriving DecidableEq

/-- `Universe::new` (lines 39-44). -/
def Universe.new : Universe :=
  { state := [List.replicate (GRID_WIDTH * GRID_HEIGHT) false,
              List.replicate (GRID_WIDTH * GRID_HEIGHT) false],
    cur := 0 }

/-- `Universe::get` (lines 47-49): read cell `(x, y)` of the current buffer
at flat index `y * GRID_WIDTH + x`. -/
def Universe.get (u : Universe) (x y : Nat) : Bool :=
  (u.state.getD u.cur []).getD (y * GRID_WIDTH + x) false

/-- `Universe::set` (lines 52-54): write cell `(x, y)` of the current buffer. -/
def Universe.set (u : Universe) (x y : Nat) (s : Bool) : Universe :=
  { u with
    state := u.state.set u.cur ((u.state.getD u.cur []).set (y * GRID_WIDTH + x) s) }

/-- `Universe::toggle` (lines 57-59): xor cell `(x, y)` of the current
buffer with `true`. -/
def Universe.toggle (u : Universe) (x y : Nat) : Universe :=
  { u with
    state := u.state.set u.cur ((u.state.getD u.cur []).set (y * GRID_WIDTH + x)
      (((u.state.getD u.cur []).getD (y * GRID_WIDTH + x) false) ^^ true)) }

/-- The transition rule applied to one cell (the `match` of lines 82-97):
the arms are tried in source order. -/
def rule (alive : Bool) (count : Nat) : Bool :=
  if alive ∧ count < 2 then false
  else if alive ∧ (count = 2 ∨ count = 3) then true
  else if alive ∧ count > 3 then false
  else if alive = false ∧ count = 3 then true
  else alive

/-- The 8-neighbour live count of cell `(x, y)` read from buffer `cb`
(lines 63-80): row indices `ypi`, `yi`, `yni` and column indices `xp`, `xn`
wrap around the grid edges exactly as in the source. -/
def neighborCount (cb : List Bool) (x y : Nat) : Nat :=
  let ypi := (if y = 0 then GRID_HEIGHT - 1 else y - 1) * GRID_WIDTH
  let yi := y * GRID_WIDTH
  let yni := (if y = GRID_HEIGHT - 1 then 0 else y + 1) * GRID_WIDTH
  let xp := if x = 0 then GRID_WIDTH - 1 else x - 1
  let xn := if x = GRID_WIDTH - 1 then 0 else x + 1
  (cb.getD (ypi + xp) false).toNat +
  (cb.getD (ypi + x) false).toNat +
  (cb.getD (ypi + xn) false).toNat +
  (cb.getD (yi + xp) false).toNat +
  (cb.getD (yi + xn) false).toNat +
  (cb.getD (yni + xp) false).toNat +
  (cb.getD (yni + x) false).toNat +
  (cb.getD (yni + xn) false).toNat

/-- The next state of cell `(x, y)` computed from buffer `cb`: the rule
applied to the cell's own state and its neighbour count (lines 73-97). -/
def cellNext (cb : List Bool) (x y : Nat) : Bool :=
  rule (cb.getD (y * GRID_WIDTH + x) false) (neighborCount cb x y)

/-- `Universe::iterate` (lines 62-101): for every cell in row-major loop
order, write the cell's next state into the scratch buffer `1 - cur`,
reading from the live state array as the loop mutates it; finally flip
which buffer is current. -/
def Universe.iterate (u : Universe) : Universe :=
  { state :=
      (List.range GRID_HEIGHT).foldl (fun st y =>
        (List.range GRID_WIDTH).foldl (fun st x =>
          st.set (1 - u.cur) ((st.getD (1 - u.cur) []).set (y * GRID_WIDTH + x)
            (cellNext (st.getD u.cur []) x y))) st) u.state,
    cur := 1 - u.cur }

/-- Well-formedness of a universe state: a current-buffer index below 2 and
two buffers of exactly `GRID_WIDTH*GRID_HEIGHT` cells, as set up by
`Universe::new`. -/
def Universe.WF (u : Universe) : Prop :=
  u.cur < 2 ∧ u.state.length = 2 ∧ ∀ b ∈ u.state, b.length = GRID_WIDTH * GRID_HEIGHT

instance (u : Universe) : Decidable u.WF := by
  unfold Universe.WF; infer_instance

/-- A raw touch sample: coordinates and pressure as signed 32-bit values,
embedded as unbounded integers. -/
structure TouchEvent where
  x : Int
  y : Int
  z : Int

/-- A Rust half-open range `a..b` over signed integers, as the list of its
elements in order (empty when `b ≤ a`). -/
def intRange (a b : Int) : List Int :=
  (List.range (b - a).toNat).map (fun k : Nat => a + (k : Int))

/-- Reinterpretation of a signed 32-bit value as a 64-bit `usize`
(Rust `as usize`): sign extension followed by unsigned reading, i.e. the
value modulo `2^64`. -/
def usizeCast (i : Int) : Nat := (i % (2 : Int) ^ 64).toNat

/-- The square of grid coordinates visited by the touch handler's two
nested loops `for yi in y-r..y+r+1 { for xi in x-r..x+r+1 }`
(lines 193-194), in visit order. -/
def visitSquare (gx gy r : Int) : List (Int × Int) :=
  (intRange (gy - r) (gy + r + 1)).flatMap (fun yi =>
    (intRange (gx - r) (gx + r + 1)).map (fun xi => (xi, yi)))

/-- The input mapper (lines 189-199): grid coordinates by truncating signed
division by `BLK_SIZE`, radius `z / 300 + 1`, and for each visited
coordinate a `toggle(xi as usize, yi as usize)` call iff
`(xi as usize) < DISP_WIDTH && (yi as usize) < DISP_HEIGHT` (line 195).
Returns the list of `toggle` calls made, in order. -/
def toggleCalls (ev : TouchEvent) : List (Nat × Nat) :=
  let x := ev.x.tdiv (BLK_SIZE : Int)
  let y := ev.y.tdiv (BLK_SIZE : Int)
  let r := ev.z.tdiv 300 + 1
  (visitSquare x y r).filterMap (fun p =>
    if usizeCast p.1 < DISP_WIDTH ∧ usizeCast p.2 < DISP_HEIGHT then
      some (usizeCast p.1, usizeCast p.2)
    else none)

/-- `BLOCK_SPRITE` (lines 129-138): the live-cell sprite, eight rows of
four packed pixel-pair words. -/
def BLOCK_SPRITE : List (List Nat) :=
  [[0x38c738c7, 0x38c738c7, 0x38c738c7, 0x38c738c7],
   [0x38c7718e, 0x718e718e, 0x718e718e, 0x718e38c7],
   [0x38c7718e, 0xaa55aa55, 0xaa55aa55, 0x718e38c7],
   [0x38c7718e, 0xaa55e31c, 0xe31caa55, 0x718e38c7],
   [0x38c7718e, 0xaa55e31c, 0xe31caa55, 0x718e38c7],
   [0x38c7718e, 0xaa55aa55, 0xaa55aa55, 0x718e38c7],
   [0x38c7718e, 0x718e718e, 0x718e718e, 0x718e38c7],
   [0x38c738c7, 0x38c738c7, 0x38c738c7, 0x38c738c7]]

/-- The render loop of one frame (lines 201-211): for every grid cell and
every position inside its block, write the corresponding sprite word (live
cell) or `0` (dead cell) into the packed pixel image at
`(y*BLK_SIZE + yi) * DISP_WIDTH/2 + x*BLK_SIZE/2 + xi`. -/
def render (u : Universe) (img : List Nat) : List Nat :=
  (List.range GRID_HEIGHT).foldl (fun img y =>
    (List.range GRID_WIDTH).foldl (fun img x =>
      let state := u.get x y
      (List.range BLK_SIZE).foldl (fun img yi =>
        (List.range (BLK_SIZE / 2)).foldl (fun img xi =>
          img.set ((y * BLK_SIZE + yi) * DISP_WIDTH / 2 + x * BLK_SIZE / 2 + xi)
            (if state then (BLOCK_SPRITE.getD yi []).getD xi 0 else 0)) img) img) img) img

/-- The current buffer of a universe, the one `get`, `set`, `toggle` and the
reads of `iterate` address. -/
def Universe.curBuf (u : Universe) : List Bool := u.state.getD u.cur []

/-- The pure next-generation buffer computed cell by cell from a snapshot
`cb` of the current buffer, in the row-major order of the loops of
`Universe::iterate`. -/
def nextBuf (cb : List Bool) : List Bool :=
  (List.range GRID_HEIGHT).flatMap (fun y =>
    (List.range GRID_WIDTH).map (fun x => cellNext cb x y))

/-- The universe seeded with the glider of `main` (lines 175-185). -/
def seedUniverse : Universe :=
  ((((Universe.new.set (GRID_WIDTH / 2 + 0) (GRID_HEIGHT / 2 - 1) true).set
      (GRID_WIDTH / 2 + 1) (GRID_HEIGHT / 2 + 0) true).set
      (GRID_WIDTH / 2 - 1) (GRID_HEIGHT / 2 + 1) true).set
      (GRID_WIDTH / 2 + 0) (GRID_HEIGHT / 2 + 1) true).set
      (GRID_WIDTH / 2 + 1) (GRID_HEIGHT / 2 + 1) true

/-- The universe after the four generation steps following the seeding. -/
def afterFour : Universe := seedUniverse.iterate.iterate.iterate.iterate

/-- The five cells written by the seeding code of `main` (lines 181-185). -/
def seedCells : List (Nat × Nat) :=
  [(GRID_WIDTH / 2 + 0, GRID_HEIGHT / 2 - 1),
   (GRID_WIDTH / 2 + 1, GRID_HEIGHT / 2 + 0),
   (GRID_WIDTH / 2 - 1, GRID_HEIGHT / 2 + 1),
   (GRID_WIDTH / 2 + 0, GRID_HEIGHT / 2 + 1),
   (GRID_WIDTH / 2 + 1, GRID_HEIGHT / 2 + 1)]

/-- The seed cells translated diagonally by one cell. -/
def gliderCells : List (Nat × Nat) := seedCells.map (fun p => (p.1 + 1, p.2 + 1))

/-- Write the values `vs` into `buf` at the consecutive positions
`k, k+1, ...`, in order. -/
def writeSeq {α : Type} (buf : List α) (k : Nat) (vs : List α) : List α :=
  match vs with
  | [] => buf
  | v :: vs => writeSeq (buf.set k v) (k + 1) vs

/-- Apply a list of `(index, value)` writes to a buffer, in order. -/
def applyWrites (img : List Nat) (ws : List (Nat × Nat)) : List Nat :=
  ws.foldl (fun im w => im.set w.1 w.2) img

/-- The `(index, value)` writes performed by one execution of the render
loop (lines 201-211), in loop order. -/
def renderWrites (u : Universe) : List (Nat × Nat) :=
  (List.range GRID_HEIGHT).flatMap (fun y =>
    (List.range GRID_WIDTH).flatMap (fun x =>
      (List.range BLK_SIZE).flatMap (fun yi =>
        (List.range (BLK_SIZE / 2)).map (fun xi =>
          ((y * BLK_SIZE + yi) * DISP_WIDTH / 2 + x * BLK_SIZE / 2 + xi,
           if u.get x y then (BLOCK_SPRITE.getD yi []).getD xi 0 else 0)))))

/-- The toroidal 8-neighbour live count written with modular wraparound,
following the spec's description: index `W-1` (resp. `H-1`) is the
neighbour of index `0` and vice versa in both axes. -/
def torusCount (cb : List Bool) (x y : Nat) : Nat :=
  let xp := (x + (GRID_WIDTH - 1)) % GRID_WIDTH
  let xn := (x + 1) % GRID_WIDTH
  let yp := (y + (GRID_HEIGHT - 1)) % GRID_HEIGHT
  let yn := (y + 1) % GRID_HEIGHT
  (cb.getD (yp * GRID_WIDTH + xp) false).toNat +
  (cb.getD (yp * GRID_WIDTH + x) false).toNat +
  (cb.getD (yp * GRID_WIDTH + xn) false).toNat +
  (cb.getD (y * GRID_WIDTH + xp) false).toNat +
  (cb.getD (y * GRID_WIDTH + xn) false).toNat +
  (cb.getD (yn * GRID_WIDTH + xp) false).toNat +
  (cb.getD (yn * GRID_WIDTH + x) false).toNat +
  (cb.getD (yn * GRID_WIDTH + xn) false).toNat

/-- Modelled from the spec: the classic rule table as the spec states it —
a live cell with fewer than two live neighbours dies, a live cell with two
or three survives, a live cell with more than three dies, a dead cell with
exactly three becomes alive, and every other cell is unchanged. -/
def lifeRule (alive : Bool) (n : Nat) : Bool :=
  if alive then
    (if n < 2 then false else if n = 2 ∨ n = 3 then true else false)
  else
    (if n = 3 then true else false)

/-- Modelled from the spec: a reference generation step that maps the whole
pre-step snapshot to a fresh next grid, cell by cell, never reading a
partially updated buffer. -/
def stepRef (cb : List Bool) : List Bool :=
  (List.range GRID_HEIGHT).flatMap (fun y =>
    (List.range GRID_WIDTH).map (fun x =>
      lifeRule (cb.getD (y * GRID_WIDTH + x) false) (torusCount cb x y)))

/-- Little-endian encoding of a boolean buffer as the natural number whose
bit `i` is cell `i`. -/
def encode : List Bool → Nat
  | [] => 0
  | b :: l => Nat.bit b (encode l)

/-- Bit-level mirror of `neighborCount`, reading cells of the encoded
buffer through `Nat.testBit`. -/
def neighborCountB (n : Nat) (x y : Nat) : Nat :=
  let ypi := (if y = 0 then GRID_HEIGHT - 1 else y - 1) * GRID_WIDTH
  let yi := y * GRID_WIDTH
  let yni := (if y = GRID_HEIGHT - 1 then 0 else y + 1) * GRID_WIDTH
  let xp := if x = 0 then GRID_WIDTH - 1 else x - 1
  let xn := if x = GRID_WIDTH - 1 then 0 else x + 1
  (n.testBit (ypi + xp)).toNat +
  (n.testBit (ypi + x)).toNat +
  (n.testBit (ypi + xn)).toNat +
  (n.testBit (yi + xp)).toNat +
  (n.testBit (yi + xn)).toNat +
  (n.testBit (yni + xp)).toNat +
  (n.testBit (yni + x)).toNat +
  (n.testBit (yni + xn)).toNat

/-- Bit-level mirror of `cellNext`. -/
def cellNextB (n : Nat) (x y : Nat) : Bool :=
  rule (n.testBit (y * GRID_WIDTH + x)) (neighborCountB n x y)

/-- Bit-level mirror of `nextBuf`: one generation step on the encoded
buffer. -/
def nextBits (n : Nat) : Nat :=
  encode ((List.range GRID_HEIGHT).flatMap (fun y =>
    (List.range GRID_WIDTH).map (fun x => cellNextB n x y)))

/-- Encoding of the seeded start buffer. -/
def gen0Bits : Nat := 16744230065732040572410911921097114149868047527288835290180406060901911564208235384248541801640374258077001976090860715003767013582101654074692770663212676109663303734729691492875403359741082016415744

/-- Encoding of the buffer one generation after seeding. -/
def gen1Bits : Nat := 5260135901562725704440192193506967208413377331618517779981418611069084226031814197802809898840192873577034039002907478524000255091372320349194371982420083325187453899491591308603617535089643725791446545930911744

/-- Encoding of the buffer two generations after seeding. -/
def gen2Bits : Nat := 15780407704657080686055637878239215019457211310373425839078874542204254821016394041928087399492772173964193755089207490751683299156426246050160882178497650108311054100122317215261320494335254768618903308043550720

/-- Encoding of the buffer three generations after seeding. -/
def gen3Bits : Nat := 15780407704673824916121356865564314462552804605633857108169137789099618926978649818333765783134124677974760969985118947727787144267379839236171287858780311296419310498960962991864550332600527434689185111930306560

/-- Encoding of the buffer four generations after seeding. -/
def gen4Bits : Nat := 36820951310857750813619193126220102509394998704680558140034823153445833949265190455919350053751975214920185516563261796061366190151021780581535022718016857182025932345333086393379468509642992787537590077188210688

/-! ### Generic list lemmas -/

theorem GRID_WIDTH_eq : GRID_WIDTH = 40 := rfl

theorem GRID_HEIGHT_eq : GRID_HEIGHT = 30 := rfl

theorem getD_set_self {α : Type} (l : List α) (i : Nat) (a d : α) (h : i < l.length) :
    (l.set i a).getD i d = a := by
  simp [List.getD_eq_getElem?_getD, List.getElem?_set_self, h]

theorem getD_set_ne {α : Type} (l : List α) (i j : Nat) (a d : α) (h : i ≠ j) :
    (l.set i a).getD j d = l.getD j d := by
  simp [List.getD_eq_getElem?_getD, List.getElem?_set_ne h]

theorem set_getD_self {α : Type} : ∀ (l : List α) (i : Nat) (d : α), l.set i (l.getD i d) = l
  | [], _, _ => rfl
  | _ :: _, 0, _ => rfl
  | a :: l, i + 1, d => by
      simp only [List.set_cons_succ, List.getD_cons_succ]
      rw [set_getD_self l i d]

theorem getD_append_left {α : Type} (l1 l2 : List α) (i : Nat) (d : α) (h : i < l1.length) :
    (l1 ++ l2).getD i d = l1.getD i d := by
  simp [List.getD_eq_getElem?_getD, List.getElem?_append, h]

theorem getD_append_right {α : Type} (l1 l2 : List α) (i : Nat) (d : α) (h : l1.length ≤ i) :
    (l1 ++ l2).getD i d = l2.getD (i - l1.length) d := by
  simp [List.getD_eq_getElem?_getD, List.getElem?_append, Nat.not_lt.mpr h]

theorem getD_map_range {α : Type} (f : Nat → α) (n i : Nat) (d : α) (h : i < n) :
    ((List.range n).map f).getD i d = f i := by
  simp [List.getD_eq_getElem?_getD, List.getElem?_map, List.getElem?_range h]

theorem foldl_flatMap {α β γ : Type} (g : α → List β) (f : γ → β → γ) :
    ∀ (l : List α) (init : γ),
    (l.flatMap g).foldl f init = l.foldl (fun acc a => (g a).foldl f acc) init
  | [], _ => rfl
  | a :: l, init => by
      rw [List.flatMap_cons, List.foldl_append, List.foldl_cons, foldl_flatMap g f l]

/-! ### Sequential-write lemmas -/

theorem writeSeq_cons {α : Type} (x : α) :
    ∀ (vs : List α) (buf : List α) (k : Nat),
    writeSeq (x :: buf) (k + 1) vs = x :: writeSeq buf k vs
  | [], _, _ => rfl
  | v :: vs, buf, k => by
      show writeSeq ((x :: buf).set (k + 1) v) (k + 2) vs
          = x :: writeSeq (buf.set k v) (k + 1) vs
      rw [List.set_cons_succ, writeSeq_cons x vs (buf.set k v) (k + 1)]

theorem writeSeq_full {α : Type} :
    ∀ (vs : List α) (buf : List α), vs.length = buf.length → writeSeq buf 0 vs = vs
  | [], [], _ => rfl
  | v :: vs, b :: buf, h => by
      show writeSeq ((b :: buf).set 0 v) 1 vs = v :: vs
      rw [List.set_cons_zero, show (1 : Nat) = 0 + 1 from rfl, writeSeq_cons v vs buf 0,
        writeSeq_full vs buf (by simpa using h)]

theorem writeSeq_append {α : Type} :
    ∀ (vs1 vs2 : List α) (buf : List α) (k : Nat),
    writeSeq buf k (vs1 ++ vs2) = writeSeq (writeSeq buf k vs1) (k + vs1.length) vs2
  | [], vs2, buf, k => by simp [writeSeq]
  | v :: vs1, vs2, buf, k => by
      show writeSeq (buf.set k v) (k + 1) (vs1 ++ vs2)
          = writeSeq (writeSeq (buf.set k v) (k + 1) vs1) (k + (vs1.length + 1)) vs2
      rw [writeSeq_append vs1 vs2 (buf.set k v) (k + 1)]
      congr 1
      omega

theorem foldl_set_range' {α : Type} (g : Nat → α) (off : Nat) :
    ∀ (n s : Nat) (buf : List α),
    (List.range' s n).foldl (fun buf x => buf.set (off + x) (g x)) buf
      = writeSeq buf (off + s) ((List.range' s n).map g)
  | 0, _, _ => rfl
  | n + 1, s, buf => by
      rw [List.range'_succ, List.foldl_cons, List.map_cons]
      show (List.range' (s + 1) n).foldl (fun buf x => buf.set (off + x) (g x))
            (buf.set (off + s) (g s))
          = writeSeq ((buf.set (off + s) (g s))) (off + s + 1) ((List.range' (s + 1) n).map g)
      rw [foldl_set_range' g off n (s + 1) (buf.set (off + s) (g s))]
      rfl

theorem foldl_set_range {α : Type} (g : Nat → α) (off : Nat) (n : Nat) (buf : List α) :
    (List.range n).foldl (fun buf x => buf.set (off + x) (g x)) buf
      = writeSeq buf off ((List.range n).map g) := by
  rw [List.range_eq_range']
  simpa using foldl_set_range' g off n 0 buf

theorem length_nextBuf (cb : List Bool) :
    (nextBuf cb).length = GRID_WIDTH * GRID_HEIGHT := by
  rw [nextBuf, List.length_flatMap]
  simp only [Function.comp_def, List.length_map, List.length_range]
  rw [List.map_const', List.sum_replicate, List.length_range, smul_eq_mul, Nat.mul_comm]

theorem buffold_eq (a : List Bool) :
    ∀ (m t : Nat) (buf : List Bool),
    (List.range' t m).foldl (fun buf y =>
        (List.range GRID_WIDTH).foldl (fun buf x =>
          buf.set (y * GRID_WIDTH + x) (cellNext a x y)) buf) buf
      = writeSeq buf (t * GRID_WIDTH)
          ((List.range' t m).flatMap (fun y =>
            (List.range GRID_WIDTH).map (fun x => cellNext a x y)))
  | 0, t, buf => rfl
  | m + 1, t, buf => by
      rw [List.range'_succ, List.foldl_cons, List.flatMap_cons]
      rw [foldl_set_range (fun x => cellNext a x t) (t * GRID_WIDTH) GRID_WIDTH buf]
      rw [buffold_eq a m (t + 1) (writeSeq buf (t * GRID_WIDTH)
        ((List.range GRID_WIDTH).map (fun x => cellNext a x t)))]
      rw [writeSeq_append]
      congr 1
      simp [Nat.succ_mul]

theorem bufFold_eq_nextBuf (a b : List Bool) (hlen : b.length = GRID_WIDTH * GRID_HEIGHT) :
    (List.range GRID_HEIGHT).foldl (fun buf y =>
        (List.range GRID_WIDTH).foldl (fun buf x =>
          buf.set (y * GRID_WIDTH + x) (cellNext a x y)) buf) b
      = nextBuf a := by
  rw [List.range_eq_range' GRID_HEIGHT]
  rw [buffold_eq a GRID_HEIGHT 0 b, Nat.zero_mul]
  rw [show (List.range' 0 GRID_HEIGHT).flatMap (fun y =>
        (List.range GRID_WIDTH).map (fun x => cellNext a x y)) = nextBuf a from by
    rw [← List.range_eq_range']; rfl]
  exact writeSeq_full _ _ (by rw [length_nextBuf, hlen])

theorem fold_pair0_inner (f : List Bool → Nat → Bool) (idx : Nat → Nat) :
    ∀ (xs : List Nat) (a b : List Bool),
    xs.foldl (fun st x => st.set 1 ((st.getD 1 []).set (idx x) (f (st.getD 0 []) x))) [a, b]
      = [a, xs.foldl (fun b x => b.set (idx x) (f a x)) b]
  | [], _, _ => rfl
  | x :: xs, a, b => by
      rw [List.foldl_cons, List.foldl_cons]
      exact fold_pair0_inner f idx xs a (b.set (idx x) (f a x))

theorem fold_pair1_inner (f : List Bool → Nat → Bool) (idx : Nat → Nat) :
    ∀ (xs : List Nat) (a b : List Bool),
    xs.foldl (fun st x => st.set 0 ((st.getD 0 []).set (idx x) (f (st.getD 1 []) x))) [a, b]
      = [xs.foldl (fun a x => a.set (idx x) (f b x)) a, b]
  | [], _, _ => rfl
  | x :: xs, a, b => by
      rw [List.foldl_cons, List.foldl_cons]
      exact fold_pair1_inner f idx xs (a.set (idx x) (f b x)) b

theorem fold_pair0_nested :
    ∀ (ys : List Nat) (a b : List Bool),
    ys.foldl (fun st y => (List.range GRID_WIDTH).foldl (fun st x =>
        st.set 1 ((st.getD 1 []).set (y * GRID_WIDTH + x)
          (cellNext (st.getD 0 []) x y))) st) [a, b]
      = [a, ys.foldl (fun b y => (List.range GRID_WIDTH).foldl (fun b x =>
          b.set (y * GRID_WIDTH + x) (cellNext a x y)) b) b]
  | [], _, _ => rfl
  | y :: ys, a, b => by
      rw [List.foldl_cons, List.foldl_cons]
      rw [fold_pair0_inner (fun cb x => cellNext cb x y) (fun x => y * GRID_WIDTH + x)
        (List.range GRID_WIDTH) a b]
      exact fold_pair0_nested ys a _

theorem fold_pair1_nested :
    ∀ (ys : List Nat) (a b : List Bool),
    ys.foldl (fun st y => (List.range GRID_WIDTH).foldl (fun st x =>
        st.set 0 ((st.getD 0 []).set (y * GRID_WIDTH + x)
          (cellNext (st.getD 1 []) x y))) st) [a, b]
      = [ys.foldl (fun a y => (List.range GRID_WIDTH).foldl (fun a x =>
          a.set (y * GRID_WIDTH + x) (cellNext b x y)) a) a, b]
  | [], _, _ => rfl
  | y :: ys, a, b => by
      rw [List.foldl_cons, List.foldl_cons]
      rw [fold_pair1_inner (fun cb x => cellNext cb x y) (fun x => y * GRID_WIDTH + x)
        (List.range GRID_WIDTH) a b]
      exact fold_pair1_nested ys _ b

/-! ### Characterization of `Universe.iterate` -/

theorem iterate_eq (u : Universe) (h : u.WF) :
    u.iterate = ⟨u.state.set (1 - u.cur) (nextBuf u.curBuf), 1 - u.cur⟩ := by
  obtain ⟨hc, hlen, hball⟩ := h
  obtain ⟨a, b, hab⟩ := List.length_eq_two.mp hlen
  have ha : a.length = GRID_WIDTH * GRID_HEIGHT := hball a (by rw [hab]; simp)
  have hb : b.length = GRID_WIDTH * GRID_HEIGHT := hball b (by rw [hab]; simp)
  have h01 : u.cur = 0 ∨ u.cur = 1 := by omega
  rcases h01 with h0 | h1
  · simp only [Universe.iterate, Universe.curBuf, h0, hab, Nat.sub_zero]
    rw [show ([a, b] : List (List Bool)).getD 0 [] = a from rfl]
    rw [fold_pair0_nested (List.range GRID_HEIGHT) a b]
    rw [bufFold_eq_nextBuf a b hb]
    rfl
  · simp only [Universe.iterate, Universe.curBuf, h1, hab, Nat.sub_self]
    rw [show ([a, b] : List (List Bool)).getD 1 [] = b from rfl]
    rw [fold_pair1_nested (List.range GRID_HEIGHT) a b]
    rw [bufFold_eq_nextBuf b a ha]
    rfl

theorem curBuf_iterate (u : Universe) (h : u.WF) :
    u.iterate.curBuf = nextBuf u.curBuf := by
  have hlen : u.state.length = 2 := h.2.1
  rw [iterate_eq u h]
  show (u.state.set (1 - u.cur) (nextBuf u.curBuf)).getD (1 - u.cur) [] = _
  exact getD_set_self _ _ _ _ (by omega)

theorem wf_iterate (u : Universe) (h : u.WF) : u.iterate.WF := by
  obtain ⟨hc, hlen, hball⟩ := h
  rw [iterate_eq u ⟨hc, hlen, hball⟩]
  refine ⟨by show 1 - u.cur < 2; omega, by simpa using hlen, ?_⟩
  intro b hb
  rcases List.mem_or_eq_of_mem_set hb with h' | h'
  · exact hball b h'
  · rw [h']; exact length_nextBuf _

theorem get_iterate (u : Universe) (h : u.WF) (x y : Nat) :
    u.iterate.get x y = (nextBuf u.curBuf).getD (y * GRID_WIDTH + x) false := by
  show u.iterate.curBuf.getD (y * GRID_WIDTH + x) false = _
  rw [curBuf_iterate u h]

theorem getD_gridFlat {α : Type} (f : Nat → Nat → α) (d : α) :
    ∀ (m t y x : Nat), t ≤ y → y < t + m → x < GRID_WIDTH →
    ((List.range' t m).flatMap (fun y =>
        (List.range GRID_WIDTH).map (fun x => f x y))).getD ((y - t) * GRID_WIDTH + x) d
      = f x y
  | 0, t, y, x, h1, h2, _ => by omega
  | m + 1, t, y, x, h1, h2, h3 => by
      rw [List.range'_succ, List.flatMap_cons]
      by_cases hyt : y = t
      · subst hyt
        rw [Nat.sub_self, Nat.zero_mul, Nat.zero_add]
        rw [getD_append_left _ _ _ _ (by simpa using h3)]
        exact getD_map_range _ _ _ _ h3
      · have hW : ((List.range GRID_WIDTH).map (fun x => f x t)).length
            ≤ (y - t) * GRID_WIDTH + x := by
          simp only [List.length_map, List.length_range]
          calc GRID_WIDTH = 1 * GRID_WIDTH := (one_mul _).symm
            _ ≤ (y - t) * GRID_WIDTH := Nat.mul_le_mul_right _ (by omega)
            _ ≤ (y - t) * GRID_WIDTH + x := Nat.le_add_right _ _
        rw [getD_append_right _ _ _ _ hW]
        have hidx : (y - t) * GRID_WIDTH + x
              - ((List.range GRID_WIDTH).map (fun x => f x t)).length
            = (y - (t + 1)) * GRID_WIDTH + x := by
          simp only [List.length_map, List.length_range]
          obtain ⟨k, hk⟩ : ∃ k, y - t = k + 1 := ⟨y - t - 1, by omega⟩
          rw [hk, Nat.succ_mul, show y - (t + 1) = k from by omega]
          omega
        rw [hidx]
        exact getD_gridFlat f d m (t + 1) y x (by omega) (by omega) h3

theorem getD_nextBuf (cb : List Bool) (x y : Nat) (hx : x < GRID_WIDTH)
    (hy : y < GRID_HEIGHT) :
    (nextBuf cb).getD (y * GRID_WIDTH + x) false = cellNext cb x y := by
  have h := getD_gridFlat (fun x y => cellNext cb x y) false GRID_HEIGHT 0 y x
    (by omega) (by omega) hx
  rw [nextBuf, List.range_eq_range' GRID_HEIGHT]
  simpa using h

/-! ### Bit-level bridge for fast evaluation of concrete generations -/

theorem testBit_encode : ∀ (l : List Bool) (i : Nat), (encode l).testBit i = l.getD i false
  | [], i => by simp [encode, Nat.zero_testBit]
  | b :: l, 0 => by simp [encode, Nat.testBit_bit_zero]
  | b :: l, i + 1 => by
      simp [encode, Nat.testBit_bit_succ, testBit_encode l i]

theorem cellNext_eq_cellNextB (cb : List Bool) (x y : Nat) :
    cellNext cb x y = cellNextB (encode cb) x y := by
  simp [cellNext, cellNextB, neighborCount, neighborCountB, testBit_encode]

theorem encode_nextBuf (cb : List Bool) : encode (nextBuf cb) = nextBits (encode cb) := by
  rw [nextBuf, nextBits]
  congr 1
  simp only [cellNext_eq_cellNextB]

set_option maxRecDepth 100000 in
theorem wf_seed : seedUniverse.WF := by decide

set_option maxRecDepth 100000 in
theorem encode_seedBuf : encode seedUniverse.curBuf = gen0Bits := by decide

set_option maxRecDepth 100000 in
theorem nextBits_gen0 : nextBits gen0Bits = gen1Bits := by decide

set_option maxRecDepth 100000 in
theorem nextBits_gen1 : nextBits gen1Bits = gen2Bits := by decide

set_option maxRecDepth 100000 in
theorem nextBits_gen2 : nextBits gen2Bits = gen3Bits := by decide

set_option maxRecDepth 100000 in
theorem nextBits_gen3 : nextBits gen3Bits = gen4Bits := by decide

theorem encode_afterFour : encode afterFour.curBuf = gen4Bits := by
  have w0 := wf_seed
  have w1 := wf_iterate _ w0
  have w2 := wf_iterate _ w1
  have w3 := wf_iterate _ w2
  rw [afterFour, curBuf_iterate _ w3, curBuf_iterate _ w2, curBuf_iterate _ w1,
    curBuf_iterate _ w0]
  rw [encode_nextBuf, encode_nextBuf, encode_nextBuf, encode_nextBuf]
  rw [encode_seedBuf, nextBits_gen0, nextBits_gen1, nextBits_gen2, nextBits_gen3]

theorem get_eq_testBit (u : Universe) (x y : Nat) :
    u.get x y = (encode u.curBuf).testBit (y * GRID_WIDTH + x) := by
  rw [testBit_encode]
  rfl

set_option maxRecDepth 100000 in
theorem testBit_gen0_cells : ∀ x < GRID_WIDTH, ∀ y < GRID_HEIGHT,
    gen0Bits.testBit (y * GRID_WIDTH + x) = seedCells.contains (x, y) := by decide

set_option maxRecDepth 100000 in
theorem testBit_gen4_cells : ∀ x < GRID_WIDTH, ∀ y < GRID_HEIGHT,
    gen4Bits.testBit (y * GRID_WIDTH + x) = gliderCells.contains (x, y) := by decide

/-! ### Spec-side equivalences, input mapper, and render machinery -/

theorem rule_eq_lifeRule (a : Bool) (n : Nat) : rule a n = lifeRule a n := by
  rcases n with _ | _ | _ | _ | n
  · cases a <;> rfl
  · cases a <;> rfl
  · cases a <;> rfl
  · cases a <;> rfl
  · have h1 : ¬(n + 4 < 2) := by omega
    have h2 : ¬(n + 4 = 2) := by omega
    have h3 : ¬(n + 4 = 3) := by omega
    have h4 : 3 < n + 4 := by omega
    cases a <;> simp [rule, lifeRule, h1, h2, h3, h4]

theorem neighborCount_eq_torusCount (cb : List Bool) (x y : Nat) (hx : x < GRID_WIDTH)
    (hy : y < GRID_HEIGHT) :
    neighborCount cb x y = torusCount cb x y := by
  rw [GRID_WIDTH_eq] at hx
  rw [GRID_HEIGHT_eq] at hy
  have h1 : (x + (GRID_WIDTH - 1)) % GRID_WIDTH = if x = 0 then GRID_WIDTH - 1 else x - 1 := by
    rw [GRID_WIDTH_eq]; split_ifs <;> omega
  have h2 : (x + 1) % GRID_WIDTH = if x = GRID_WIDTH - 1 then 0 else x + 1 := by
    rw [GRID_WIDTH_eq]; split_ifs <;> omega
  have h3 : (y + (GRID_HEIGHT - 1)) % GRID_HEIGHT
      = if y = 0 then GRID_HEIGHT - 1 else y - 1 := by
    rw [GRID_HEIGHT_eq]; split_ifs <;> omega
  have h4 : (y + 1) % GRID_HEIGHT = if y = GRID_HEIGHT - 1 then 0 else y + 1 := by
    rw [GRID_HEIGHT_eq]; split_ifs <;> omega
  simp only [neighborCount, torusCount, h1, h2, h3, h4]

theorem getD_stepRef (cb : List Bool) (x y : Nat) (hx : x < GRID_WIDTH)
    (hy : y < GRID_HEIGHT) :
    (stepRef cb).getD (y * GRID_WIDTH + x) false
      = lifeRule (cb.getD (y * GRID_WIDTH + x) false) (torusCount cb x y) := by
  have h := getD_gridFlat
    (fun x y => lifeRule (cb.getD (y * GRID_WIDTH + x) false) (torusCount cb x y)) false
    GRID_HEIGHT 0 y x (by omega) (by omega) hx
  rw [stepRef, List.range_eq_range' GRID_HEIGHT]
  simpa using h

theorem cellNext_eq_spec (cb : List Bool) (x y : Nat) (hx : x < GRID_WIDTH)
    (hy : y < GRID_HEIGHT) :
    cellNext cb x y = lifeRule (cb.getD (y * GRID_WIDTH + x) false) (torusCount cb x y) := by
  rw [cellNext, rule_eq_lifeRule, neighborCount_eq_torusCount cb x y hx hy]

theorem mem_intRange (a b k : Int) : k ∈ intRange a b ↔ a ≤ k ∧ k < b := by
  rw [intRange]
  constructor
  · intro hk
    obtain ⟨j, hj, rfl⟩ := List.mem_map.mp hk
    rw [List.mem_range] at hj
    omega
  · intro h
    rw [List.mem_map]
    refine ⟨(k - a).toNat, ?_, by omega⟩
    rw [List.mem_range]
    omega

theorem mem_visitSquare (gx gy r xi yi : Int) :
    (xi, yi) ∈ visitSquare gx gy r
      ↔ (gx - r ≤ xi ∧ xi ≤ gx + r ∧ gy - r ≤ yi ∧ yi ≤ gy + r) := by
  simp only [visitSquare, List.mem_flatMap, List.mem_map, mem_intRange]
  constructor
  · rintro ⟨y', ⟨h1, h2⟩, x', ⟨h3, h4⟩, heq⟩
    have hx : x' = xi := congrArg Prod.fst heq
    have hy : y' = yi := congrArg Prod.snd heq
    subst hx; subst hy
    omega
  · intro h
    exact ⟨yi, ⟨by omega, by omega⟩, xi, ⟨by omega, by omega⟩, rfl⟩

theorem length_applyWrites :
    ∀ (ws : List (Nat × Nat)) (img : List Nat), (applyWrites img ws).length = img.length
  | [], _ => rfl
  | w :: ws, img => by
      show (applyWrites (img.set w.1 w.2) ws).length = img.length
      rw [length_applyWrites ws _, List.length_set]

theorem getD_applyWrites_not_mem :
    ∀ (ws : List (Nat × Nat)) (img : List Nat) (i d : Nat), (∀ w ∈ ws, w.1 ≠ i) →
    (applyWrites img ws).getD i d = img.getD i d
  | [], _, _, _, _ => rfl
  | w :: ws, img, i, d, h => by
      show (applyWrites (img.set w.1 w.2) ws).getD i d = img.getD i d
      rw [getD_applyWrites_not_mem ws _ i d (fun w' hw' => h w' (List.mem_cons_of_mem _ hw'))]
      exact getD_set_ne _ _ _ _ _ (h w (List.mem_cons_self w ws))

theorem getD_applyWrites_last :
    ∀ (ws : List (Nat × Nat)) (img : List Nat) (i d v : Nat), i < img.length →
    (∃ w ∈ ws, w.1 = i) → (∀ w ∈ ws, w.1 = i → w.2 = v) →
    (applyWrites img ws).getD i d = v
  | [], _, _, _, _, _, hex, _ => by simp at hex
  | w :: ws, img, i, d, v, hlen, hex, hval => by
      show (applyWrites (img.set w.1 w.2) ws).getD i d = v
      by_cases hw : ∃ w' ∈ ws, w'.1 = i
      · exact getD_applyWrites_last ws _ i d v (by rw [List.length_set]; exact hlen) hw
          (fun w' h' => hval w' (List.mem_cons_of_mem _ h'))
      · have h1 : w.1 = i := by
          obtain ⟨w', hw', h'⟩ := hex
          rcases List.mem_cons.mp hw' with rfl | hmem
          · exact h'
          · exact absurd ⟨w', hmem, h'⟩ hw
        push_neg at hw
        rw [getD_applyWrites_not_mem ws _ i d hw, h1]
        rw [getD_set_self img i w.2 d hlen]
        exact hval w (List.mem_cons_self w ws) h1

theorem DISP_WIDTH_eq : DISP_WIDTH = 320 := rfl

theorem DISP_HEIGHT_eq : DISP_HEIGHT = 240 := rfl

theorem BLK_SIZE_eq : BLK_SIZE = 8 := rfl

theorem imageWords_eq : DISP_WIDTH * DISP_HEIGHT / 2 = 38400 := rfl

theorem mem_renderWrites (u : Universe) (w : Nat × Nat) :
    w ∈ renderWrites u ↔ ∃ y < GRID_HEIGHT, ∃ x < GRID_WIDTH, ∃ yi < BLK_SIZE,
      ∃ xi < BLK_SIZE / 2,
      w = ((y * BLK_SIZE + yi) * DISP_WIDTH / 2 + x * BLK_SIZE / 2 + xi,
           if u.get x y then (BLOCK_SPRITE.getD yi []).getD xi 0 else 0) := by
  rw [renderWrites]
  constructor
  · intro hw
    obtain ⟨y, hy, hw⟩ := List.mem_flatMap.mp hw
    rw [List.mem_range] at hy
    obtain ⟨x, hx, hw⟩ := List.mem_flatMap.mp hw
    rw [List.mem_range] at hx
    obtain ⟨yi, hyi, hw⟩ := List.mem_flatMap.mp hw
    rw [List.mem_range] at hyi
    obtain ⟨xi, hxi, hw⟩ := List.mem_map.mp hw
    rw [List.mem_range] at hxi
    exact ⟨y, hy, x, hx, yi, hyi, xi, hxi, hw.symm⟩
  · rintro ⟨y, hy, x, hx, yi, hyi, xi, hxi, rfl⟩
    refine List.mem_flatMap.mpr ⟨y, List.mem_range.mpr hy, ?_⟩
    refine List.mem_flatMap.mpr ⟨x, List.mem_range.mpr hx, ?_⟩
    refine List.mem_flatMap.mpr ⟨yi, List.mem_range.mpr hyi, ?_⟩
    exact List.mem_map.mpr ⟨xi, List.mem_range.mpr hxi, rfl⟩

theorem exists_renderWrite (u : Universe) (i : Nat) (hi : i < DISP_WIDTH * DISP_HEIGHT / 2) :
    ∃ w ∈ renderWrites u, w.1 = i := by
  rw [imageWords_eq] at hi
  refine ⟨_, (mem_renderWrites u _).mpr
    ⟨i / 1280, ?_, i % 160 / 4, ?_, i / 160 % 8, ?_, i % 4, ?_, rfl⟩, ?_⟩
  · rw [GRID_HEIGHT_eq]; omega
  · rw [GRID_WIDTH_eq]; omega
  · rw [BLK_SIZE_eq]; omega
  · rw [BLK_SIZE_eq]; omega
  · show (i / 1280 * BLK_SIZE + i / 160 % 8) * DISP_WIDTH / 2
        + i % 160 / 4 * BLK_SIZE / 2 + i % 4 = i
    rw [BLK_SIZE_eq, DISP_WIDTH_eq]
    omega

theorem length_renderWrites (u : Universe) :
    (renderWrites u).length = DISP_WIDTH * DISP_HEIGHT / 2 := by
  rw [renderWrites]
  simp [List.length_flatMap, Function.comp_def, List.map_const', List.sum_replicate]
  rfl

theorem renderWrites_fst_perm (u : Universe) :
    ((renderWrites u).map Prod.fst).Perm (List.range (DISP_WIDTH * DISP_HEIGHT / 2)) := by
  have hsub : List.range (DISP_WIDTH * DISP_HEIGHT / 2) ⊆ (renderWrites u).map Prod.fst := by
    intro i hi
    rw [List.mem_range] at hi
    obtain ⟨w, hw, h1⟩ := exists_renderWrite u i hi
    rw [List.mem_map]
    exact ⟨w, hw, h1⟩
  have hsp := List.Nodup.subperm (List.nodup_range (DISP_WIDTH * DISP_HEIGHT / 2)) hsub
  have hlen : ((renderWrites u).map Prod.fst).length
      ≤ (List.range (DISP_WIDTH * DISP_HEIGHT / 2)).length := by
    rw [List.length_map, length_renderWrites, List.length_range]
  exact (List.Subperm.perm_of_length_le hsp hlen).symm

theorem render_eq_applyWrites (u : Universe) (img : List Nat) :
    render u img = applyWrites img (renderWrites u) := by
  rw [render, renderWrites, applyWrites]
  simp only [foldl_flatMap, List.foldl_map]

theorem getD_eq_getElem {α : Type} (l : List α) (i : Nat) (d : α) (h : i < l.length) :
    l.getD i d = l[i] := by
  simp [List.getD_eq_getElem?_getD, List.getElem?_eq_getElem h]

theorem curBuf_mem (u : Universe) (h : u.cur < u.state.length) : u.curBuf ∈ u.state := by
  rw [Universe.curBuf, List.getD_eq_getElem?_getD, List.getElem?_eq_getElem h]
  exact List.getElem_mem h

theorem curBuf_length (u : Universe) (h : u.WF) :
    u.curBuf.length = GRID_WIDTH * GRID_HEIGHT :=
  h.2.2 _ (curBuf_mem u (by have h1 := h.1; have h2 := h.2.1; omega))

theorem idx_lt (x y : Nat) (hx : x < GRID_WIDTH) (hy : y < GRID_HEIGHT) :
    y * GRID_WIDTH + x < GRID_WIDTH * GRID_HEIGHT := by
  rw [GRID_WIDTH_eq] at hx ⊢
  rw [GRID_HEIGHT_eq] at hy
  rw [GRID_HEIGHT_eq]
  omega

theorem toggle_toggle (u : Universe) (h : u.WF) (x y : Nat) (hx : x < GRID_WIDTH)
    (hy : y < GRID_HEIGHT) : (u.toggle x y).toggle x y = u := by
  have hcl : u.cur < u.state.length := by
    have := h.1
    have := h.2.1
    omega
  have hil : y * GRID_WIDTH + x < (u.state.getD u.cur []).length := by
    have : (u.state.getD u.cur []).length = GRID_WIDTH * GRID_HEIGHT := curBuf_length u h
    rw [this]
    exact idx_lt x y hx hy
  show ({ u with
    state := ((u.toggle x y).state.set (u.toggle x y).cur
      (((u.toggle x y).state.getD (u.toggle x y).cur []).set (y * GRID_WIDTH + x)
        ((((u.toggle x y).state.getD (u.toggle x y).cur []).getD (y * GRID_WIDTH + x) false)
          ^^ true))) } : Universe) = u
  have hc2 : (u.toggle x y).cur = u.cur := rfl
  have hs2 : (u.toggle x y).state = u.state.set u.cur
      ((u.state.getD u.cur []).set (y * GRID_WIDTH + x)
        (((u.state.getD u.cur []).getD (y * GRID_WIDTH + x) false) ^^ true)) := rfl
  rw [hc2, hs2]
  rw [getD_set_self u.state u.cur _ [] hcl]
  rw [getD_set_self _ _ _ false hil]
  rw [List.set_set, List.set_set]
  rw [show ∀ b : Bool, ((b ^^ true) ^^ true) = b from by intro b; cases b <;> rfl]
  rw [set_getD_self, set_getD_self]


theorem set_true_set_false_get (u : Universe) (h : u.WF) (x y : Nat) (hx : x < GRID_WIDTH)
    (hy : y < GRID_HEIGHT) : ((u.set x y true).set x y false).get x y = false := by
  have hcl : u.cur < u.state.length := by
    have h1 := h.1
    have h2 := h.2.1
    omega
  have hil : y * GRID_WIDTH + x < (u.state.getD u.cur []).length := by
    have hL : (u.state.getD u.cur []).length = GRID_WIDTH * GRID_HEIGHT := curBuf_length u h
    rw [hL]
    exact idx_lt x y hx hy
  have hc2 : (u.set x y true).cur = u.cur := rfl
  have hs2 : (u.set x y true).state
      = u.state.set u.cur ((u.state.getD u.cur []).set (y * GRID_WIDTH + x) true) := rfl
  have e1 : (u.set x y true).state.getD (u.set x y true).cur []
      = (u.state.getD u.cur []).set (y * GRID_WIDTH + x) true := by
    rw [hc2, hs2]
    exact getD_set_self u.state u.cur _ [] hcl
  show (((u.set x y true).state.set (u.set x y true).cur
      (((u.set x y true).state.getD (u.set x y true).cur []).set (y * GRID_WIDTH + x)
        false)).getD (u.set x y true).cur []).getD (y * GRID_WIDTH + x) false = false
  rw [e1, hc2, hs2]
  rw [List.set_set]
  rw [getD_set_self u.state u.cur _ [] hcl]
  rw [List.set_set]
  exact getD_set_self _ _ _ _ hil

/-! ### The claims -/

set_option maxRecDepth 100000 in
/-- Claim C1 (code bug): the input mapper's bound check (line 195) compares the
grid coordinates against `DISP_WIDTH`/`DISP_HEIGHT` instead of
`GRID_WIDTH`/`GRID_HEIGHT`. For the in-display touch sample `(319, 239, 0)`
the mapper emits a `toggle` call at `(40, 30)`, a coordinate outside the
`40×30` grid whose flat index `30*GRID_WIDTH + 40 = 1240` is not below the
`GRID_WIDTH*GRID_HEIGHT = 1200`-cell buffer length, so the array access in
`Universe::toggle` panics. -/
theorem spec_C1_bug :
    ((40 : Nat), (30 : Nat)) ∈ toggleCalls ⟨319, 239, 0⟩
      ∧ ¬(40 < GRID_WIDTH) ∧ ¬(30 < GRID_HEIGHT)
      ∧ GRID_WIDTH * GRID_HEIGHT ≤ 30 * GRID_WIDTH + 40 := by decide

/-- Claim C2: one `step()` maps every cell by the classic rule table applied
to its 8-neighbour live count in the pre-step state: live with fewer than two
neighbours dies, live with two or three survives, live with four or more
dies, dead with exactly three becomes alive, dead otherwise stays dead. -/
theorem spec_C2 (u : Universe) (h : u.WF) (x y : Nat) (hx : x < GRID_WIDTH)
    (hy : y < GRID_HEIGHT) :
    (u.get x y = true → neighborCount u.curBuf x y < 2 → u.iterate.get x y = false)
    ∧ (u.get x y = true →
        (neighborCount u.curBuf x y = 2 ∨ neighborCount u.curBuf x y = 3) →
        u.iterate.get x y = true)
    ∧ (u.get x y = true → 3 < neighborCount u.curBuf x y → u.iterate.get x y = false)
    ∧ (u.get x y = false → neighborCount u.curBuf x y = 3 → u.iterate.get x y = true)
    ∧ (u.get x y = false → neighborCount u.curBuf x y ≠ 3 → u.iterate.get x y = false) := by
  have hgi : u.iterate.get x y = cellNext u.curBuf x y := by
    rw [get_iterate u h, getD_nextBuf _ _ _ hx hy]
  have hread : u.get x y = u.curBuf.getD (y * GRID_WIDTH + x) false := rfl
  refine ⟨?_, ?_, ?_, ?_, ?_⟩
  · intro ha hn
    rw [hgi, cellNext, ← hread, ha]
    simp [rule, hn]
  · intro ha hn
    rw [hgi, cellNext, ← hread, ha]
    rcases hn with h2 | h2 <;> rw [h2] <;> rfl
  · intro ha hn
    rw [hgi, cellNext, ← hread, ha]
    have h1 : ¬(neighborCount u.curBuf x y < 2) := by omega
    have h2 : ¬(neighborCount u.curBuf x y = 2 ∨ neighborCount u.curBuf x y = 3) := by omega
    simp [rule, h1, h2, hn]
  · intro ha hn
    rw [hgi, cellNext, ← hread, ha, hn]
    rfl
  · intro ha hn
    rw [hgi, cellNext, ← hread, ha]
    simp [rule, hn]

set_option maxRecDepth 100000 in
theorem spec_C2_witness :
    Universe.new.WF ∧ 0 < GRID_WIDTH ∧ 0 < GRID_HEIGHT
      ∧ (Universe.new.get 0 0 = true → neighborCount Universe.new.curBuf 0 0 < 2 →
          Universe.new.iterate.get 0 0 = false) :=
  ⟨by decide, by decide, by decide,
    (spec_C2 Universe.new (by decide) 0 0 (by decide) (by decide)).1⟩

/-- Claim C3: the neighbour count used by `step()` is the toroidal 8-neighbour
sum: it equals the sum of the eight cells at the modular offsets
`x ± 1 (mod GRID_WIDTH)`, `y ± 1 (mod GRID_HEIGHT)`, and in particular a live
cell at `(0,0)` contributes to the counts of `(GRID_WIDTH-1, 0)`,
`(0, GRID_HEIGHT-1)` and `(GRID_WIDTH-1, GRID_HEIGHT-1)`. -/
theorem spec_C3 (u : Universe) (x y : Nat) (hx : x < GRID_WIDTH) (hy : y < GRID_HEIGHT) :
    neighborCount u.curBuf x y = torusCount u.curBuf x y
    ∧ (u.get 0 0 = true →
        0 < neighborCount u.curBuf (GRID_WIDTH - 1) 0
        ∧ 0 < neighborCount u.curBuf 0 (GRID_HEIGHT - 1)
        ∧ 0 < neighborCount u.curBuf (GRID_WIDTH - 1) (GRID_HEIGHT - 1)) := by
  constructor
  · exact neighborCount_eq_torusCount u.curBuf x y hx hy
  · intro hlive
    have h0 : u.curBuf.getD 0 false = true := hlive
    rw [List.getD_eq_getElem?_getD] at h0
    refine ⟨?_, ?_, ?_⟩
    · norm_num [neighborCount, GRID_WIDTH_eq, GRID_HEIGHT_eq]
      simp [h0]
    · norm_num [neighborCount, GRID_WIDTH_eq, GRID_HEIGHT_eq]
      simp [h0]
    · norm_num [neighborCount, GRID_WIDTH_eq, GRID_HEIGHT_eq]
      simp [h0]

set_option maxRecDepth 100000 in
theorem spec_C3_witness :
    0 < GRID_WIDTH ∧ 0 < GRID_HEIGHT
      ∧ neighborCount Universe.new.curBuf 0 0 = torusCount Universe.new.curBuf 0 0 :=
  ⟨by decide, by decide, (spec_C3 Universe.new 0 0 (by decide) (by decide)).1⟩

/-- Claim C4: `step()` agrees cell for cell with the pure reference step that
maps the whole pre-step snapshot of the current buffer to a fresh grid: no
cell is read after being overwritten during the sweep, because all writes go
to the scratch buffer. -/
theorem spec_C4 (u : Universe) (h : u.WF) (x y : Nat) (hx : x < GRID_WIDTH)
    (hy : y < GRID_HEIGHT) :
    u.iterate.get x y = (stepRef u.curBuf).getD (y * GRID_WIDTH + x) false := by
  rw [get_iterate u h, getD_nextBuf _ _ _ hx hy, getD_stepRef _ _ _ hx hy,
    cellNext_eq_spec _ _ _ hx hy]

set_option maxRecDepth 100000 in
theorem spec_C4_witness :
    Universe.new.WF ∧ 0 < GRID_WIDTH ∧ 0 < GRID_HEIGHT
      ∧ Universe.new.iterate.get 0 0
          = (stepRef Universe.new.curBuf).getD (0 * GRID_WIDTH + 0) false :=
  ⟨by decide, by decide, by decide,
    spec_C4 Universe.new (by decide) 0 0 (by decide) (by decide)⟩

/-- Claim C5: from the seeded glider, four `step()` calls reproduce the same
five-cell shape translated diagonally by one cell: the start state is exactly
the five seed cells, and the state after four steps is exactly those cells
shifted by `(+1, +1)`, every other cell dead. -/
theorem spec_C5 (x y : Nat) (hx : x < GRID_WIDTH) (hy : y < GRID_HEIGHT) :
    seedUniverse.get x y = seedCells.contains (x, y)
      ∧ afterFour.get x y = gliderCells.contains (x, y) := by
  constructor
  · rw [get_eq_testBit, encode_seedBuf]
    exact testBit_gen0_cells x hx y hy
  · rw [get_eq_testBit, encode_afterFour]
    exact testBit_gen4_cells x hx y hy

set_option maxRecDepth 100000 in
theorem spec_C5_witness :
    22 < GRID_WIDTH ∧ 17 < GRID_HEIGHT
      ∧ (seedUniverse.get 22 17 = seedCells.contains (22, 17)
          ∧ afterFour.get 22 17 = gliderCells.contains (22, 17)) :=
  ⟨by decide, by decide, spec_C5 22 17 (by decide) (by decide)⟩

/-- Claim C6: for an in-bounds cell, `toggle` is an involution — applying it
twice restores the whole universe — and `set(x,y,true)` followed by
`set(x,y,false)` leaves the cell dead regardless of its prior state. -/
theorem spec_C6 (u : Universe) (h : u.WF) (x y : Nat) (hx : x < GRID_WIDTH)
    (hy : y < GRID_HEIGHT) :
    (u.toggle x y).toggle x y = u
      ∧ ((u.set x y true).set x y false).get x y = false :=
  ⟨toggle_toggle u h x y hx hy, set_true_set_false_get u h x y hx hy⟩

set_option maxRecDepth 100000 in
theorem spec_C6_witness :
    Universe.new.WF ∧ 3 < GRID_WIDTH ∧ 2 < GRID_HEIGHT
      ∧ ((Universe.new.toggle 3 2).toggle 3 2 = Universe.new
          ∧ ((Universe.new.set 3 2 true).set 3 2 false).get 3 2 = false) :=
  ⟨by decide, by decide, by decide,
    spec_C6 Universe.new (by decide) 3 2 (by decide) (by decide)⟩

/-- Claim C7: rendering an all-dead grid yields the all-zero pixel buffer of
exactly `DISP_WIDTH*DISP_HEIGHT/2` packed pixel-pair words; rendering an
all-live grid places the `BLK_SIZE × BLK_SIZE` live sprite at pixel offset
`(x*BLK_SIZE, y*BLK_SIZE)` for every cell; the buffer length is preserved at
`DISP_WIDTH*DISP_HEIGHT/2`; and the indices written by one frame are a
permutation of `0, ..., DISP_WIDTH*DISP_HEIGHT/2 - 1` — every buffer word is
written exactly once, with no gaps and no overlaps. -/
theorem spec_C7 (u : Universe) (img : List Nat)
    (himg : img.length = DISP_WIDTH * DISP_HEIGHT / 2) :
    ((∀ x < GRID_WIDTH, ∀ y < GRID_HEIGHT, u.get x y = false) →
        render u img = List.replicate (DISP_WIDTH * DISP_HEIGHT / 2) 0)
    ∧ ((∀ x < GRID_WIDTH, ∀ y < GRID_HEIGHT, u.get x y = true) →
        ∀ x < GRID_WIDTH, ∀ y < GRID_HEIGHT, ∀ yi < BLK_SIZE, ∀ xi < BLK_SIZE / 2,
          (render u img).getD
              ((y * BLK_SIZE + yi) * DISP_WIDTH / 2 + x * BLK_SIZE / 2 + xi) 0
            = (BLOCK_SPRITE.getD yi []).getD xi 0)
    ∧ (render u img).length = DISP_WIDTH * DISP_HEIGHT / 2
    ∧ ((renderWrites u).map Prod.fst).Perm (List.range (DISP_WIDTH * DISP_HEIGHT / 2)) := by
  refine ⟨?_, ?_, ?_, renderWrites_fst_perm u⟩
  · intro hdead
    have hval : ∀ w ∈ renderWrites u, w.2 = 0 := by
      intro w hw
      obtain ⟨y, hy, x, hx, yi, hyi, xi, hxi, rfl⟩ := (mem_renderWrites u w).mp hw
      simp [hdead x hx y hy]
    apply List.ext_getElem
    · rw [render_eq_applyWrites, length_applyWrites, himg, List.length_replicate]
    · intro i h1 h2
      have hi : i < DISP_WIDTH * DISP_HEIGHT / 2 := by
        rw [render_eq_applyWrites, length_applyWrites, himg] at h1
        exact h1
      have hstep : (render u img).getD i 0 = 0 := by
        rw [render_eq_applyWrites]
        exact getD_applyWrites_last (renderWrites u) img i 0 0 (by rw [himg]; exact hi)
          (exists_renderWrite u i hi) (fun w hw _ => hval w hw)
      rw [← getD_eq_getElem _ _ 0 h1, hstep, List.getElem_replicate]
  · intro hlive x hx y hy yi hyi xi hxi
    have hi : (y * BLK_SIZE + yi) * DISP_WIDTH / 2 + x * BLK_SIZE / 2 + xi
        < DISP_WIDTH * DISP_HEIGHT / 2 := by
      rw [GRID_WIDTH_eq] at hx
      rw [GRID_HEIGHT_eq] at hy
      rw [BLK_SIZE_eq] at hyi hxi
      rw [imageWords_eq, DISP_WIDTH_eq, BLK_SIZE_eq]
      omega
    rw [render_eq_applyWrites]
    apply getD_applyWrites_last (renderWrites u) img _ 0 _ (by rw [himg]; exact hi)
    · exact ⟨_, (mem_renderWrites u _).mpr ⟨y, hy, x, hx, yi, hyi, xi, hxi, rfl⟩, rfl⟩
    · intro w hw hwi
      obtain ⟨y', hy', x', hx', yi', hyi', xi', hxi', rfl⟩ := (mem_renderWrites u w).mp hw
      dsimp only at hwi
      have hco : y' = y ∧ x' = x ∧ yi' = yi ∧ xi' = xi := by
        rw [GRID_WIDTH_eq] at hx hx'
        rw [GRID_HEIGHT_eq] at hy hy'
        rw [BLK_SIZE_eq] at hyi hxi hyi' hxi' hwi
        rw [DISP_WIDTH_eq] at hwi
        omega
      obtain ⟨rfl, rfl, rfl, rfl⟩ := hco
      simp [hlive x' hx' y' hy']
  · rw [render_eq_applyWrites, length_applyWrites, himg]

set_option maxRecDepth 1000000 in
theorem spec_C7_witness :
    (List.replicate (DISP_WIDTH * DISP_HEIGHT / 2) 0).length = DISP_WIDTH * DISP_HEIGHT / 2
      ∧ (((∀ x < GRID_WIDTH, ∀ y < GRID_HEIGHT, Universe.new.get x y = false) →
            render Universe.new (List.replicate (DISP_WIDTH * DISP_HEIGHT / 2) 0)
              = List.replicate (DISP_WIDTH * DISP_HEIGHT / 2) 0)
          ∧ ((∀ x < GRID_WIDTH, ∀ y < GRID_HEIGHT, Universe.new.get x y = true) →
              ∀ x < GRID_WIDTH, ∀ y < GRID_HEIGHT, ∀ yi < BLK_SIZE, ∀ xi < BLK_SIZE / 2,
                (render Universe.new
                    (List.replicate (DISP_WIDTH * DISP_HEIGHT / 2) 0)).getD
                    ((y * BLK_SIZE + yi) * DISP_WIDTH / 2 + x * BLK_SIZE / 2 + xi) 0
                  = (BLOCK_SPRITE.getD yi []).getD xi 0)
          ∧ (render Universe.new (List.replicate (DISP_WIDTH * DISP_HEIGHT / 2) 0)).length
              = DISP_WIDTH * DISP_HEIGHT / 2
          ∧ ((renderWrites Universe.new).map Prod.fst).Perm
              (List.range (DISP_WIDTH * DISP_HEIGHT / 2))) :=
  ⟨by simp, spec_C7 Universe.new (List.replicate (DISP_WIDTH * DISP_HEIGHT / 2) 0) (by simp)⟩

/-- Claim C8: the input mapper computes the grid coordinates by truncating
signed division of the touch coordinates by `BLK_SIZE = 8`, the radius as
`z / 300 + 1` by truncating signed division, and visits exactly the
coordinates of the square `[gx-r, gx+r] × [gy-r, gy+r]`. -/
theorem spec_C8 (ev : TouchEvent) (xi yi : Int) :
    toggleCalls ev
      = (visitSquare (ev.x.tdiv (BLK_SIZE : Int)) (ev.y.tdiv (BLK_SIZE : Int))
          (ev.z.tdiv 300 + 1)).filterMap (fun p =>
          if usizeCast p.1 < DISP_WIDTH ∧ usizeCast p.2 < DISP_HEIGHT then
            some (usizeCast p.1, usizeCast p.2)
          else none)
    ∧ ((xi, yi) ∈ visitSquare (ev.x.tdiv (BLK_SIZE : Int)) (ev.y.tdiv (BLK_SIZE : Int))
          (ev.z.tdiv 300 + 1)
        ↔ ev.x.tdiv (BLK_SIZE : Int) - (ev.z.tdiv 300 + 1) ≤ xi
          ∧ xi ≤ ev.x.tdiv (BLK_SIZE : Int) + (ev.z.tdiv 300 + 1)
          ∧ ev.y.tdiv (BLK_SIZE : Int) - (ev.z.tdiv 300 + 1) ≤ yi
          ∧ yi ≤ ev.y.tdiv (BLK_SIZE : Int) + (ev.z.tdiv 300 + 1)) :=
  ⟨rfl, mem_visitSquare _ _ _ xi yi⟩

/-- Claim C9: under the precondition `x < GRID_WIDTH` and `y < GRID_HEIGHT`,
the flat index `y * GRID_WIDTH + x` used by `get`, `set` and `toggle` is
strictly below the current buffer's length, so the panicking out-of-bounds
branch of the array access is unreachable; without the precondition the index
can reach the buffer length. -/
theorem spec_C9 :
    (∀ (u : Universe), u.WF → ∀ x y : Nat, x < GRID_WIDTH → y < GRID_HEIGHT →
        y * GRID_WIDTH + x < u.curBuf.length)
    ∧ (∃ x y : Nat, GRID_WIDTH * GRID_HEIGHT ≤ y * GRID_WIDTH + x) := by
  constructor
  · intro u h x y hx hy
    rw [curBuf_length u h]
    exact idx_lt x y hx hy
  · exact ⟨GRID_WIDTH * GRID_HEIGHT, 0, by simp⟩

set_option maxRecDepth 100000 in
theorem spec_C9_witness :
    Universe.new.WF ∧ 0 < GRID_WIDTH ∧ 0 < GRID_HEIGHT
      ∧ 0 * GRID_WIDTH + 0 < Universe.new.curBuf.length :=
  ⟨by decide, by decide, by decide,
    spec_C9.1 Universe.new (by decide) 0 0 (by decide) (by decide)⟩

/-- Claim C10: for an in-bounds cell, `toggle` and `set` change neither the
current-buffer selector nor the scratch buffer, and they leave every other
in-bounds cell of the current buffer unchanged. -/
theorem spec_C10 (u : Universe) (h : u.WF) (x y : Nat) (hx : x < GRID_WIDTH)
    (hy : y < GRID_HEIGHT) (s : Bool) :
    (u.toggle x y).cur = u.cur
    ∧ (u.set x y s).cur = u.cur
    ∧ (u.toggle x y).state.getD (1 - u.cur) [] = u.state.getD (1 - u.cur) []
    ∧ (u.set x y s).state.getD (1 - u.cur) [] = u.state.getD (1 - u.cur) []
    ∧ (∀ x' y', x' < GRID_WIDTH → y' < GRID_HEIGHT → (x', y') ≠ (x, y) →
        (u.toggle x y).get x' y' = u.get x' y'
        ∧ (u.set x y s).get x' y' = u.get x' y') := by
  have hcl : u.cur < u.state.length := by
    have h1 := h.1
    have h2 := h.2.1
    omega
  have hne : u.cur ≠ 1 - u.cur := by
    have h1 := h.1
    omega
  refine ⟨rfl, rfl, getD_set_ne _ _ _ _ _ hne, getD_set_ne _ _ _ _ _ hne, ?_⟩
  intro x' y' hx' hy' hp
  have hii : y * GRID_WIDTH + x ≠ y' * GRID_WIDTH + x' := by
    have hxy : ¬(x' = x ∧ y' = y) := by
      intro hc
      exact hp (by rw [hc.1, hc.2])
    rw [GRID_WIDTH_eq] at hx hx' ⊢
    rw [GRID_HEIGHT_eq] at hy hy'
    omega
  constructor
  · show ((u.toggle x y).state.getD (u.toggle x y).cur []).getD (y' * GRID_WIDTH + x') false
        = u.get x' y'
    have hc2 : (u.toggle x y).cur = u.cur := rfl
    have hs2 : (u.toggle x y).state
        = u.state.set u.cur ((u.state.getD u.cur []).set (y * GRID_WIDTH + x)
            (((u.state.getD u.cur []).getD (y * GRID_WIDTH + x) false) ^^ true)) := rfl
    rw [hc2, hs2, getD_set_self u.state u.cur _ [] hcl]
    exact getD_set_ne _ _ _ _ _ hii
  · show ((u.set x y s).state.getD (u.set x y s).cur []).getD (y' * GRID_WIDTH + x') false
        = u.get x' y'
    have hc2 : (u.set x y s).cur = u.cur := rfl
    have hs2 : (u.set x y s).state
        = u.state.set u.cur ((u.state.getD u.cur []).set (y * GRID_WIDTH + x) s) := rfl
    rw [hc2, hs2, getD_set_self u.state u.cur _ [] hcl]
    exact getD_set_ne _ _ _ _ _ hii

set_option maxRecDepth 100000 in
theorem spec_C10_witness :
    Universe.new.WF ∧ 1 < GRID_WIDTH ∧ 1 < GRID_HEIGHT
      ∧ ((Universe.new.toggle 1 1).cur = Universe.new.cur
          ∧ (Universe.new.set 1 1 true).cur = Universe.new.cur
          ∧ (Universe.new.toggle 1 1).state.getD (1 - Universe.new.cur) []
              = Universe.new.state.getD (1 - Universe.new.cur) []
          ∧ (Universe.new.set 1 1 true).state.getD (1 - Universe.new.cur) []
              = Universe.new.state.getD (1 - Universe.new.cur) []
          ∧ (∀ x' y', x' < GRID_WIDTH → y' < GRID_HEIGHT → (x', y') ≠ (1, 1) →
              (Universe.new.toggle 1 1).get x' y' = Universe.new.get x' y'
              ∧ (Universe.new.set 1 1 true).get x' y' = Universe.new.get x' y')) :=
  ⟨by decide, by decide, by decide,
    spec_C10 Universe.new (by decide) 1 1 (by decide) (by decide) true⟩
